import Mathlib

/-!
# Verification of the scap-workbench local scan supervisor

A shallow embedding of `src/OscapScannerLocal.cpp` (class `OscapScannerLocal`):
the scan orchestrator `evaluate`, the capability probe `fillInCapabilities`,
the privileged-invocation resolver `getOscapProgram` / `getPkexecOscapPath`,
the dry-run preview `getCommandLineArgs`, and the remediation role generator
`createRemediationRoleAfterEvaluate`.

Qt process/file side effects are embedded as an explicit trace of actions
(`Action`) appended to a run state (`ScanState`).  External collaborators
declared outside this translation unit (`buildEvaluationArgs`,
`buildOfflineRemediationArgs` from `OscapScannerBase`, the `ScanningSession`
queries, `checkPrerequisites`) are parameters of the embedding: the argument
builders are opaque functions bundled in `Builders`, the session/process
environment is a record `EvalEnv` of the values those calls return during one
run.  Compile-time configuration macros (`SCAP_WORKBENCH_LOCAL_NICE_FOUND`,
`SCAP_WORKBENCH_LOCAL_NICE_PATH`, `SCAP_WORKBENCH_LOCAL_OSCAP_NICENESS`,
`SCAP_WORKBENCH_LOCAL_PKEXEC_OSCAP_PATH`, `SCAP_WORKBENCH_LOCAL_OSCAP_PATH`)
are a record `Config`.
-/

namespace ScapWorkbench

/-- Scanner mode enumeration (`OscapScannerBase`): plain scan, scan with
online remediation, or offline remediation of a captured ARF bundle. -/
inductive ScannerMode where
  | SM_SCAN
  | SM_SCAN_ONLINE_REMEDIATION
  | SM_OFFLINE_REMEDIATION
deriving DecidableEq, Repr

/-- Observable side effects of the supervisor, in program order:
`info`/`error` are the `infoMessage`/`errorMessage` signal emissions,
`completion` is `signalCompletion(bool cancelled)`, `spawn` is
`QProcess::start(program, args)` (or the `SyncProcess` run of the probe),
`kill` is `QProcess::kill()`, `writeFile` is opening a file for writing and
writing the given contents (pre-creation writes `""`), `readFile` is a
`readAll` of the named file. -/
inductive Action where
  | info (msg : String)
  | error (msg : String)
  | completion (cancelled : Bool)
  | spawn (program : String) (args : List String)
  | kill
  | writeFile (path : String) (contents : String)
  | readFile (path : String)
deriving DecidableEq, Repr

def Action.isCompletion : Action → Bool
  | .completion _ => true
  | _ => false

def Action.isKill : Action → Bool
  | .kill => true
  | _ => false

def Action.isSpawn : Action → Bool
  | .spawn _ _ => true
  | _ => false

def Action.isReadFile : Action → Bool
  | .readFile _ => true
  | _ => false

def Action.isWriteFile : Action → Bool
  | .writeFile _ _ => true
  | _ => false

/-- Build-time configuration macros of `OscapScannerLocal.cpp`.
`niceFound` is whether `SCAP_WORKBENCH_LOCAL_NICE_FOUND` is defined. -/
structure Config where
  niceFound : Bool
  nicePath : String
  niceness : Int
  pkexecOscapPath : String
  localOscapPath : String
deriving DecidableEq, Repr

/-- Mutable state of one orchestration run (`OscapScannerBase` members as
used by `OscapScannerLocal`): the cancellation flag `mCancelRequested`, the
parsed capability blob `mCapabilities`, the three artifact byte buffers
`mResults` / `mReport` / `mARF` (`none` = never assigned by a read-back),
whether the scan process has been killed, and the emitted action trace. -/
structure ScanState where
  cancelRequested : Bool
  processKilled : Bool
  capabilities : Option String
  results : Option String
  report : Option String
  arf : Option String
  trace : List Action
deriving DecidableEq, Repr

/-- The state at the start of a fresh run: no cancellation requested, no
capabilities parsed, empty buffers, empty trace. -/
def ScanState.initial : ScanState :=
  { cancelRequested := false
    processKilled := false
    capabilities := none
    results := none
    report := none
    arf := none
    trace := [] }

/-- Append one observable action to the run's trace. -/
def emit (st : ScanState) (a : Action) : ScanState :=
  { st with trace := st.trace ++ [a] }

/-- Embeds `OscapScannerLocal::getPkexecOscapPath`: the environment variable
`SCAP_WORKBENCH_PKEXEC_OSCAP_PATH` (modelled as a string, `""` when unset,
matching `qgetenv` + `isEmpty`) overrides the configured
`SCAP_WORKBENCH_LOCAL_PKEXEC_OSCAP_PATH`. -/
def getPkexecOscapPath (cfg : Config) (envOverride : String) : String :=
  if envOverride = "" then cfg.pkexecOscapPath else envOverride

/-- Embeds `OscapScannerLocal::getOscapProgram`: when the build found a niceness
wrapper, prepend (in source order) the pkexec oscap path, the niceness level
and the `-n` flag to `args` and return the nice path as program; otherwise
leave `args` alone and return the pkexec oscap path.  The result is
`(program, args)`. -/
def getOscapProgram (cfg : Config) (envOverride : String) (args : List String) :
    String × List String :=
  if cfg.niceFound then
    let args := getPkexecOscapPath cfg envOverride :: args
    let args := toString cfg.niceness :: args
    let args := "-n" :: args
    (cfg.nicePath, args)
  else
    (getPkexecOscapPath cfg envOverride, args)

/-- The argument builders `buildEvaluationArgs` / `buildOfflineRemediationArgs`
are declared in `OscapScannerBase` (outside this translation unit); the spec
treats them as opaque pure functions:
`buildEvaluationArgs(documentPath, tailoringPath, resultPath, reportPath,
archivePath, onlineRemediation, ignoreCapabilities=false)` and
`buildOfflineRemediationArgs(inputArchivePath, resultPath, reportPath,
archivePath, ignoreCapabilities=false)`.  The embedding is parameterized
over them. -/
structure Builders where
  buildEvaluationArgs :
    String → String → String → String → String → Bool → Bool → List String
  buildOfflineRemediationArgs :
    String → String → String → String → Bool → List String

/-- Environment of one `evaluate` run: configuration, session query results,
temporary file names allocated by `LocalOscapSession` / `QTemporaryFile`, the
behaviour of the external processes (probe exit code and output, whether the
main process enters the running state, its exit code), the on-disk contents of
the three artifact files at read-back time, and the cancellation schedule.

`schedule` has one entry per poll tick at which `waitForFinished` would time
out with the process still alive: entry `i` is whether a user cancellation
request is delivered by the event pump during the body of tick `i`.  After a
`kill` the process is gone, so the next `waitForFinished` succeeds and the
rest of the schedule is irrelevant. -/
structure EvalEnv where
  cfg : Config
  pkexecOverride : String
  dryRun : Bool
  scannerMode : ScannerMode
  openedFilePath : String
  hasTailoring : Bool
  tailoringFilePath : String
  userTailoringFilePath : String
  arfForRemediation : String
  inputArfTempName : String
  dryInputArfTempName : String
  resultFileName : String
  reportFileName : String
  arfFileName : String
  probeExitCode : Int
  probeDiagnostic : String
  probeStdOut : String
  prerequisitesOk : Bool
  processStarts : Bool
  schedule : List Bool
  exitCode : Int
  resultFileContents : String
  reportFileContents : String
  arfFileContents : String
deriving DecidableEq, Repr

/-- The `fillInCapabilities` probe-failure message
(`"Failed to query capabilities of oscap on local machine.\nDiagnostic
info:\n%1"` with `%1` substituted). -/
def capFailMsg (diag : String) : String :=
  "Failed to query capabilities of oscap on local machine.\nDiagnostic info:\n"
    ++ diag

/-- Launch-failure message of `evaluate` (`%1` = program). -/
def launchFailMsg (program : String) : String :=
  "Failed to start local scanning process '" ++ program
    ++ "'. Perhaps the executable was not found?"

/-- Cancellation-in-progress notice of the poll loop. -/
def cancelNoticeMsg : String :=
  "Cancellation was requested! Terminating scanning..."

/-- Exit-code-1 error message of `evaluate`. -/
def evalErrMsg : String :=
  "There was an error during evaluation! Exit code of the 'oscap' process was 1."

/-- Embeds `OscapScannerLocal::fillInCapabilities`: run the local oscap synchronously
with `-V`; on non-zero exit code set `mCancelRequested`, signal completion and
throw a `runtime_error` carrying the diagnostic message (returned as
`some msg`); on success parse stdout into `mCapabilities` (the parse is
opaque, the raw stdout is stored). -/
def fillInCapabilities (env : EvalEnv) (st : ScanState) :
    ScanState × Option String :=
  let st := emit st (.spawn env.cfg.localOscapPath ["-V"])
  if env.probeExitCode ≠ 0 then
    let st := { st with cancelRequested := true }
    let st := emit st (.completion st.cancelRequested)
    (st, some (capFailMsg env.probeDiagnostic))
  else
    ({ st with capabilities := some env.probeStdOut }, none)

/-- The argument vector `evaluate` assembles for the main scan process
(before `getOscapProgram` resolution), lines 119–141 of the source:
offline remediation uses the materialized input ARF temp file, other modes
use the opened document and the session's effective tailoring path. -/
def realScanArgs (B : Builders) (env : EvalEnv) : List String :=
  if env.scannerMode = .SM_OFFLINE_REMEDIATION then
    B.buildOfflineRemediationArgs env.inputArfTempName
      env.resultFileName env.reportFileName env.arfFileName false
  else
    B.buildEvaluationArgs env.openedFilePath
      (if env.hasTailoring then env.tailoringFilePath else "")
      env.resultFileName env.reportFileName env.arfFileName
      (env.scannerMode = .SM_SCAN_ONLINE_REMEDIATION) false

/-- The poll loop of `evaluate` (lines 156–171) for a process that entered
the running state: each schedule entry is one tick where `waitForFinished`
timed out; a killed or naturally exited (schedule exhausted) process makes
the next `waitForFinished` succeed, so the loop exits.  In the body: drain
stdout/stderr (no observable effect in this model — the accumulated console
text is outside the claims), pump the event queue (which may deliver a
cancellation request, the schedule entry), and if cancellation has been
requested emit the notice and kill the process.

This terminating function is the loop's semantics only when the process
actually runs; the general exit condition of `QProcess::waitForFinished` —
which never succeeds for a process that failed to start, making the source's
launch-failure path loop forever — is modelled by `pollLoopFueled` below,
and the two are connected by the refinement lemmas. -/
def pollLoop : List Bool → ScanState → ScanState
  | [], st => st
  | c :: rest, st =>
    if st.processKilled then st
    else
      let st :=
        if st.cancelRequested || c then
          let st := { st with cancelRequested := true }
          let st := emit st (.info cancelNoticeMsg)
          { emit st .kill with processKilled := true }
        else st
      pollLoop rest st

/-- The poll loop of `evaluate` (lines 156–171) with the faithful
`QProcess::waitForFinished` exit condition, fueled by the number of
`waitForFinished` calls: the wait succeeds (first component returned, second
component `true`) only when the process entered the running state
(`running`) and has exited — either it was killed, or its natural exit
(schedule exhausted) has been reached.  For a process that failed to start
the wait returns false immediately and `kill()` is a no-op, so the body —
including the repeated cancellation notice and kill of lines 165–170 —
repeats forever; exhausting the fuel returns the state reached so far with
`false` (the loop has not exited). -/
def pollLoopFueled (running : Bool) : Nat → List Bool → ScanState → ScanState × Bool
  | 0, _, st => (st, false)
  | fuel + 1, sched, st =>
    if running && (st.processKilled || sched.isEmpty) then (st, true)
    else
      let c := sched.headD false
      let st :=
        if st.cancelRequested || c then
          let st := { st with cancelRequested := true }
          let st := emit st (.info cancelNoticeMsg)
          { emit st .kill with processKilled := true }
        else st
      pollLoopFueled running fuel sched.tail st

/-- Finalization of `evaluate` (lines 173–211): if no cancellation was
requested, exit code 1 emits the error and marks the run cancelled, any
other exit code reads the three artifact files back in full; a cancelled
run only emits the cancellation notice.  In all cases the run ends with
`signalCompletion(mCancelRequested)`. -/
def finalizePhase (env : EvalEnv) (st : ScanState) : ScanState :=
  let st :=
    if !st.cancelRequested then
      if env.exitCode = 1 then
        let st := emit st (.error evalErrMsg)
        { st with cancelRequested := true }
      else
        let st := emit st (.info "The oscap tool has finished. Reading results...")
        let st := { emit st (.readFile env.resultFileName) with
                      results := some env.resultFileContents }
        let st := { emit st (.readFile env.reportFileName) with
                      report := some env.reportFileContents }
        let st := { emit st (.readFile env.arfFileName) with
                      arf := some env.arfFileContents }
        emit st (.info "Processing has been finished!")
    else
      emit st (.info "Scanning cancelled!")
  emit st (.completion st.cancelRequested)

/-- The launch segment of `evaluate` (lines 109–155), up to the entry of the
poll loop: announce the start, materialize the offline-remediation input when
needed, build the argument vector, resolve the program, start the process (a
failed start emits the launch error and sets `mCancelRequested`), announce
processing. -/
def launchState (B : Builders) (env : EvalEnv) (st : ScanState) : ScanState :=
  let st := emit st (.info "Starting the oscap process...")
  let st :=
    if env.scannerMode = .SM_OFFLINE_REMEDIATION then
      emit st (.writeFile env.inputArfTempName env.arfForRemediation)
    else st
  let pa := getOscapProgram env.cfg env.pkexecOverride (realScanArgs B env)
  let st := emit st (.spawn pa.1 pa.2)
  let st :=
    if env.processStarts then st
    else { emit st (.error (launchFailMsg pa.1)) with cancelRequested := true }
  emit st (.info "Processing...")

/-- The launch-and-poll segment of `evaluate` (lines 109–211): launch, poll
to exit, finalize. -/
def scanPhase (B : Builders) (env : EvalEnv) (st : ScanState) : ScanState :=
  finalizePhase env (pollLoop env.schedule (launchState B env st))

/-- Embeds `OscapScannerLocal::evaluate` (lines 75–212): dry runs signal completion
at once; then capability probing (a thrown probe failure is caught and
converted to an error notice), prerequisite checking (failure marks the run
cancelled and signals completion), and the launch/poll/finalize phase.

The poll loop inside `scanPhase` is the terminating `pollLoop`, so this
function is the run's semantics only on paths that terminate: every
pre-launch path, and every launch whose process enters the running state
(see `evaluateFueled` for the faithful semantics covering the launch-failure
path, where the source hangs). -/
def evaluate (B : Builders) (env : EvalEnv) (st : ScanState) : ScanState :=
  if env.dryRun then
    emit st (.completion st.cancelRequested)
  else
    let st := emit st (.info "Querying capabilities...")
    match fillInCapabilities env st with
    | (st, some msg) => emit st (.error msg)
    | (st, none) =>
      if !env.prerequisitesOk then
        let st := { st with cancelRequested := true }
        emit st (.completion st.cancelRequested)
      else
        scanPhase B env st

/-- Embeds `OscapScannerLocal::evaluate` (lines 75–212) with the poll loop's
faithful `waitForFinished` exit condition (`pollLoopFueled`): identical to
`evaluate` on every path up to the poll loop; the second component is
whether the run has terminated within `fuel` poll ticks.  A process that
failed to enter the running state (line 147) makes `waitForFinished` return
false forever, so the run never reaches the `signalCompletion` of line 211:
the result is the partial state with `false`, for every fuel. -/
def evaluateFueled (B : Builders) (env : EvalEnv) (fuel : Nat) (st : ScanState) :
    ScanState × Bool :=
  if env.dryRun then
    (emit st (.completion st.cancelRequested), true)
  else
    let st := emit st (.info "Querying capabilities...")
    match fillInCapabilities env st with
    | (st, some msg) => (emit st (.error msg), true)
    | (st, none) =>
      if !env.prerequisitesOk then
        let st := { st with cancelRequested := true }
        (emit st (.completion st.cancelRequested), true)
      else
        let p := pollLoopFueled env.processStarts fuel env.schedule
          (launchState B env st)
        if p.2 then (finalizePhase env p.1, true) else (p.1, false)

/-- Remove the first occurrence of `x` (`QStringList::removeOne`). -/
def removeOne (x : String) : List String → List String
  | [] => []
  | y :: ys => if y = x then ys else y :: removeOne x ys

/-- Embeds `OscapScannerLocal::getCommandLineArgs` (lines 221–258): the dry-run
command-line preview.  Starts from the literal token `"oscap"`, appends the
builder output for the active mode pointed at the fixed `/tmp` placeholder
paths with capability gating ignored (offline mode first materializes its
input ARF temp file — the only side effect, returned as the second
component; no process is ever spawned), and removes the first `"--progress"`.
In the evaluation branch the tailoring path passed is
`mSession->getUserTailoringFilePath()`. -/
def getCommandLineArgs (B : Builders) (env : EvalEnv) :
    List String × List Action :=
  if env.scannerMode = .SM_OFFLINE_REMEDIATION then
    let args := "oscap" ::
      B.buildOfflineRemediationArgs env.dryInputArfTempName
        "/tmp/xccdf-results.xml" "/tmp/report.html" "/tmp/arf.xml" true
    (removeOne "--progress" args,
     [.writeFile env.dryInputArfTempName env.arfForRemediation])
  else
    let args := "oscap" ::
      B.buildEvaluationArgs env.openedFilePath env.userTailoringFilePath
        "/tmp/xccdf-results.xml" "/tmp/report.html" "/tmp/arf.xml"
        (env.scannerMode = .SM_SCAN_ONLINE_REMEDIATION) true
    (removeOne "--progress" args, [])

/-- Follows the spec's words (for the refinement claim about the dry-run
preview): "same invocation shape as a real offline-remediation or evaluation
run, but pointed at fixed placeholder paths, with capability-gating disabled
and a progress-reporting flag stripped from the argument vector".  Built from
`realScanArgs` (the argument vector a real run assembles) with exactly those
deltas: output paths replaced by the three `/tmp` placeholders, the
`ignoreCapabilities` flag set, the preview's own input-ARF temp name in
offline mode, the display token `"oscap"` prefixed, and the first
`"--progress"` removed. -/
def dryRunPreviewSpec (B : Builders) (env : EvalEnv) : List String :=
  let args :=
    if env.scannerMode = .SM_OFFLINE_REMEDIATION then
      B.buildOfflineRemediationArgs env.dryInputArfTempName
        "/tmp/xccdf-results.xml" "/tmp/report.html" "/tmp/arf.xml" true
    else
      B.buildEvaluationArgs env.openedFilePath
        (if env.hasTailoring then env.tailoringFilePath else "")
        "/tmp/xccdf-results.xml" "/tmp/report.html" "/tmp/arf.xml"
        (env.scannerMode = .SM_SCAN_ONLINE_REMEDIATION) true
  removeOne "--progress" ("oscap" :: args)

/-- Missing-profile error message of `createRemediationRoleAfterEvaluate`. -/
def roleNoProfileMsg : String :=
  "Unable to get profile ID for the passed check. It is impossible to get the result ID without the profile ID, so no remediation role can be generated."

/-- Exit-code-1 error message of `createRemediationRoleAfterEvaluate`. -/
def roleErrMsg : String :=
  "There was an error in course of remediation role generation! Exit code of the 'oscap' process was 1."

/-- Environment of one `createRemediationRoleAfterEvaluate` call:
configuration, the session's profile id, the call arguments, the stored ARF
artifact file name, and the exit code of the generation process. -/
structure RoleEnv where
  cfg : Config
  pkexecOverride : String
  profileId : String
  fixType : String
  roleFile : String
  arfFileName : String
  exitCode : Int
deriving DecidableEq, Repr

/-- The fixed-shape argument vector `createRemediationRoleAfterEvaluate`
assembles (before `getOscapProgram` resolution), lines 300–313. -/
def roleArgs (env : RoleEnv) : List String :=
  ["xccdf", "generate", "fix",
   "--fix-type", env.fixType, "--output", env.roleFile,
   "--result-id", env.profileId, env.arfFileName]

/-- Embeds `OscapScannerLocal::createRemediationRoleAfterEvaluate` (lines 285–338):
an empty profile id emits the error and returns; otherwise the destination
role file is pre-created zero-length, the fixed argument vector is resolved
through `getOscapProgram`, the process is started and polled to completion
(draining stderr only — not cancellable, no event pumping), and exit code 1
emits the error notice.  It never signals completion and never touches
`mCancelRequested` or the artifact buffers. -/
def createRemediationRoleAfterEvaluate (env : RoleEnv) (st : ScanState) :
    ScanState :=
  if env.profileId = "" then
    emit st (.error roleNoProfileMsg)
  else
    let st := emit st (.writeFile env.roleFile "")
    let pa := getOscapProgram env.cfg env.pkexecOverride (roleArgs env)
    let st := emit st (.spawn pa.1 pa.2)
    let st := emit st (.info "Processing...")
    if env.exitCode = 1 then
      emit st (.error roleErrMsg)
    else st

/-! ## Concrete sample inputs (for witnesses and counterexamples) -/

/-- A sample build configuration (niceness wrapper disabled). -/
def sampleCfg : Config :=
  { niceFound := false
    nicePath := "/usr/bin/nice"
    niceness := 10
    pkexecOscapPath := "/usr/local/bin/scap-workbench-pkexec-oscap"
    localOscapPath := "/usr/bin/oscap" }

/-- Sample argument builders standing in for the opaque
`buildEvaluationArgs` / `buildOfflineRemediationArgs` collaborators. -/
def sampleBuilders : Builders :=
  { buildEvaluationArgs := fun doc tailoring res rep arf online icap =>
      ["xccdf", "eval", "--tailoring-file", tailoring, "--results", res,
       "--report", rep, "--results-arf", arf, "--progress",
       toString online, toString icap, doc]
    buildOfflineRemediationArgs := fun input res rep arf icap =>
      ["xccdf", "remediate", "--results", res, "--report", rep,
       "--results-arf", arf, "--progress", toString icap, input] }

/-- A sample run environment: plain scan, probe succeeds, prerequisites
hold, the process starts, two uneventful poll ticks, exit code 2. -/
def sampleEnv : EvalEnv :=
  { cfg := sampleCfg
    pkexecOverride := ""
    dryRun := false
    scannerMode := .SM_SCAN
    openedFilePath := "/scan/doc.xml"
    hasTailoring := false
    tailoringFilePath := ""
    userTailoringFilePath := ""
    arfForRemediation := ""
    inputArfTempName := "/tmp/qt_temp.AAAAAA"
    dryInputArfTempName := "/tmp/qt_temp.BBBBBB"
    resultFileName := "/tmp/qt_temp.result"
    reportFileName := "/tmp/qt_temp.report"
    arfFileName := "/tmp/qt_temp.arf"
    probeExitCode := 0
    probeDiagnostic := ""
    probeStdOut := "OpenSCAP command line tool (oscap) 1.2.16"
    prerequisitesOk := true
    processStarts := true
    schedule := [false, false]
    exitCode := 2
    resultFileContents := "<TestResult/>"
    reportFileContents := "<html/>"
    arfFileContents := "<arf/>" }

/-- Variant of `sampleEnv` configured as a dry run. -/
def sampleEnvDry : EvalEnv := { sampleEnv with dryRun := true }

/-- Variant of `sampleEnv` with a failing capability probe. -/
def sampleEnvProbeFail : EvalEnv :=
  { sampleEnv with probeExitCode := 2, probeDiagnostic := "oscap: not found" }

/-- Variant of `sampleEnv` with a cancellation request delivered at the second poll
tick and exit code 0. -/
def sampleEnvCancel : EvalEnv :=
  { sampleEnv with schedule := [false, true, false], exitCode := 0 }

/-- Variant of `sampleEnv` whose scan process fails to enter the running
state (e.g. the executable was not found). -/
def sampleEnvLaunchFail : EvalEnv := { sampleEnv with processStarts := false }

/-- A sample role-generation environment. -/
def sampleRoleEnv : RoleEnv :=
  { cfg := sampleCfg
    pkexecOverride := ""
    profileId := "xccdf_org_profile_1"
    fixType := "bash"
    roleFile := "/home/user/remediation.sh"
    arfFileName := "/tmp/qt_temp.arf"
    exitCode := 0 }

/-- Variant of `sampleRoleEnv` with an empty profile identifier. -/
def sampleRoleEnvNoProfile : RoleEnv := { sampleRoleEnv with profileId := "" }

/-- Variant of `sampleEnv` where the session has no tailoring but a user-supplied
tailoring file path is set: a real evaluation run passes `""` as the
tailoring path while the dry-run preview passes the user path. -/
def sampleEnvTailoringMismatch : EvalEnv :=
  { sampleEnv with userTailoringFilePath := "/home/user/tailoring.xml" }

/-! ## Poll-loop lemmas -/

/-- A killed process no longer times out: the loop exits immediately. -/
theorem pollLoop_killed (s : List Bool) (st : ScanState)
    (h : st.processKilled = true) : pollLoop s st = st := by
  cases s with
  | nil => rfl
  | cons c rest => simp [pollLoop, h]

/-- If no cancellation request ever arrives and none is pending, the poll
loop is pure waiting: the state is unchanged. -/
theorem pollLoop_no_cancel (s : List Bool) (st : ScanState)
    (hs : ∀ c ∈ s, c = false) (hc : st.cancelRequested = false) :
    pollLoop s st = st := by
  induction s with
  | nil => rfl
  | cons c rest ih =>
    have hcv : c = false := hs c (by simp)
    by_cases hk : st.processKilled = true
    · simp [pollLoop, hk]
    · simp only [pollLoop, hk, hcv, hc, Bool.or_self, if_neg, if_false,
        Bool.false_eq_true, ite_false]
      exact ih fun x hx => hs x (by simp [hx])

/-- If a cancellation request arrives at some tick while the process is
still alive, the loop emits the cancellation notice, kills the process
exactly once, and exits on the next tick with the flag set. -/
theorem pollLoop_cancels (s : List Bool) (st : ScanState)
    (hk : st.processKilled = false) (hc : st.cancelRequested = false)
    (hs : true ∈ s) :
    pollLoop s st =
      { st with cancelRequested := true, processKilled := true,
                trace := st.trace ++ [.info cancelNoticeMsg, .kill] } := by
  induction s with
  | nil => cases hs
  | cons c rest ih =>
    by_cases hcv : c = true
    · subst hcv
      simp only [pollLoop, hk, hc, Bool.false_or, if_true, if_neg,
        Bool.false_eq_true, ite_false, emit]
      rw [pollLoop_killed]
      · simp
      · rfl
    · have hcf : c = false := by simpa using hcv
      subst hcf
      have hmem : true ∈ rest := by simpa using hs
      simp only [pollLoop, hk, hc, Bool.or_self, Bool.false_eq_true,
        ite_false, if_neg]
      exact ih hmem

/-- Frame property of the poll loop: it only appends cancellation notices
and kill actions to the trace, and leaves the capability blob and the three
artifact buffers untouched. -/
theorem pollLoop_frame (s : List Bool) (st : ScanState) :
    ∃ t, (pollLoop s st).trace = st.trace ++ t ∧
      (∀ a ∈ t, a = Action.info cancelNoticeMsg ∨ a = Action.kill) ∧
      (pollLoop s st).results = st.results ∧
      (pollLoop s st).report = st.report ∧
      (pollLoop s st).arf = st.arf ∧
      (pollLoop s st).capabilities = st.capabilities := by
  induction s generalizing st with
  | nil => exact ⟨[], by simp [pollLoop]⟩
  | cons c rest ih =>
    by_cases hk : st.processKilled = true
    · exact ⟨[], by simp [pollLoop, hk]⟩
    · by_cases hcc : (st.cancelRequested || c) = true
      · obtain ⟨t, ht, hmem, h1, h2, h3, h4⟩ :=
          ih { st with cancelRequested := true, processKilled := true,
                       trace := st.trace ++ [.info cancelNoticeMsg, .kill] }
        refine ⟨[.info cancelNoticeMsg, .kill] ++ t, ?_, ?_, ?_, ?_, ?_, ?_⟩
        · simpa [pollLoop, hk, hcc, emit] using ht
        · intro a ha
          rcases List.mem_append.mp ha with hI | hI
          · simp only [List.mem_cons, List.not_mem_nil, or_false] at hI
            rcases hI with hI | hI
            · exact Or.inl hI
            · exact Or.inr hI
          · exact hmem a hI
        · simpa [pollLoop, hk, hcc, emit] using h1
        · simpa [pollLoop, hk, hcc, emit] using h2
        · simpa [pollLoop, hk, hcc, emit] using h3
        · simpa [pollLoop, hk, hcc, emit] using h4
      · obtain ⟨t, ht, hmem, h1, h2, h3, h4⟩ := ih st
        refine ⟨t, ?_, hmem, ?_, ?_, ?_, ?_⟩
        · simpa [pollLoop, hk, hcc] using ht
        · simpa [pollLoop, hk, hcc] using h1
        · simpa [pollLoop, hk, hcc] using h2
        · simpa [pollLoop, hk, hcc] using h3
        · simpa [pollLoop, hk, hcc] using h4

/-! ## Fueled poll-loop lemmas -/

/-- For a process that never entered the running state, `waitForFinished`
never succeeds: the loop does not exit, for any fuel. -/
theorem pollLoopFueled_not_running (fuel : Nat) (sched : List Bool)
    (st : ScanState) : (pollLoopFueled false fuel sched st).2 = false := by
  induction fuel generalizing sched st with
  | zero => rfl
  | succ n ih =>
    simp only [pollLoopFueled, Bool.false_and, Bool.false_eq_true, if_false,
      ite_false, reduceIte]
    exact ih _ _

/-- Helper for the frame lemmas: prepending the cancellation notice and the
kill action preserves the "only notices and kills" bound. -/
theorem cancelKill_mem {t : List Action}
    (hmem : ∀ a ∈ t, a = Action.info cancelNoticeMsg ∨ a = Action.kill) :
    ∀ a ∈ [Action.info cancelNoticeMsg, Action.kill] ++ t,
      a = Action.info cancelNoticeMsg ∨ a = Action.kill := by
  intro a ha
  rcases List.mem_append.mp ha with hI | hI
  · simp only [List.mem_cons, List.not_mem_nil, or_false] at hI
    rcases hI with hI | hI
    · exact Or.inl hI
    · exact Or.inr hI
  · exact hmem a hI

/-- The fueled loop, exited or not, only appends cancellation notices and
kill actions to the trace. -/
theorem pollLoopFueled_frame (running : Bool) (fuel : Nat) (sched : List Bool)
    (st : ScanState) :
    ∃ t, (pollLoopFueled running fuel sched st).1.trace = st.trace ++ t ∧
      ∀ a ∈ t, a = Action.info cancelNoticeMsg ∨ a = Action.kill := by
  induction fuel generalizing sched st with
  | zero => exact ⟨[], by simp [pollLoopFueled]⟩
  | succ n ih =>
    by_cases hk : (running && (st.processKilled || sched.isEmpty)) = true
    · exact ⟨[], by simp [pollLoopFueled, hk]⟩
    · have hk' : (running && (st.processKilled || sched.isEmpty)) = false := by
        simpa using hk
      cases sched with
      | nil =>
        have hrun : running = false := by
          cases running
          · rfl
          · simp at hk'
        by_cases hcc : st.cancelRequested = true
        · obtain ⟨t, ht, hmem⟩ :=
            ih []
              { st with cancelRequested := true, processKilled := true,
                        trace := st.trace ++ [.info cancelNoticeMsg, .kill] }
          refine ⟨[.info cancelNoticeMsg, .kill] ++ t, ?_, cancelKill_mem hmem⟩
          simpa [pollLoopFueled, hrun, hcc, emit] using ht
        · have hcc' : st.cancelRequested = false := by simpa using hcc
          obtain ⟨t, ht, hmem⟩ := ih [] st
          refine ⟨t, ?_, hmem⟩
          simpa [pollLoopFueled, hrun, hcc'] using ht
      | cons c rest =>
        have hneg : ¬(running = true ∧ st.processKilled = true) := by
          rintro ⟨h1, h2⟩
          rw [h1, h2] at hk'
          simp at hk'
        by_cases hcc : (st.cancelRequested || c) = true
        · obtain ⟨t, ht, hmem⟩ :=
            ih rest
              { st with cancelRequested := true, processKilled := true,
                        trace := st.trace ++ [.info cancelNoticeMsg, .kill] }
          refine ⟨[.info cancelNoticeMsg, .kill] ++ t, ?_, cancelKill_mem hmem⟩
          simpa [pollLoopFueled, hneg, hcc, emit] using ht
        · have hcc' : (st.cancelRequested || c) = false := by simpa using hcc
          obtain ⟨t, ht, hmem⟩ := ih rest st
          refine ⟨t, ?_, hmem⟩
          simpa [pollLoopFueled, hneg, hcc'] using ht

/-- Refinement, sufficiency direction: for a running process and enough fuel
(one `waitForFinished` call more than the schedule has timeout ticks), the
fueled loop exits with exactly the state `pollLoop` computes. -/
theorem pollLoopFueled_enough (sched : List Bool) (fuel : Nat) (st : ScanState)
    (hfuel : sched.length < fuel) :
    pollLoopFueled true fuel sched st = (pollLoop sched st, true) := by
  induction sched generalizing fuel st with
  | nil =>
    cases fuel with
    | zero => exact absurd hfuel (by simp)
    | succ n => simp [pollLoopFueled, pollLoop]
  | cons c rest ih =>
    cases fuel with
    | zero => exact absurd hfuel (by simp)
    | succ n =>
      have hn : rest.length < n := by simpa using hfuel
      by_cases hk : st.processKilled = true
      · simp [pollLoopFueled, pollLoop, hk]
      · have hk' : st.processKilled = false := by simpa using hk
        by_cases hcc : (st.cancelRequested || c) = true
        · simp only [pollLoopFueled, pollLoop, hk', hcc, List.isEmpty_cons,
            Bool.or_false, Bool.and_false, Bool.false_eq_true, if_false,
            ite_false, if_true, ite_true, List.headD_cons, List.tail_cons,
            reduceIte]
          exact ih n _ hn
        · have hcc' : (st.cancelRequested || c) = false := by simpa using hcc
          simp only [pollLoopFueled, pollLoop, hk', hcc', List.isEmpty_cons,
            Bool.or_false, Bool.and_false, Bool.false_eq_true, if_false,
            ite_false, List.headD_cons, List.tail_cons, reduceIte]
          exact ih n _ hn

/-- Refinement, exit direction: whenever the fueled loop exits, the process
had entered the running state and the exit state is exactly the state
`pollLoop` computes. -/
theorem pollLoopFueled_exit (fuel : Nat) (running : Bool) (sched : List Bool)
    (st : ScanState)
    (h : (pollLoopFueled running fuel sched st).2 = true) :
    running = true ∧
      (pollLoopFueled running fuel sched st).1 = pollLoop sched st := by
  induction fuel generalizing sched st with
  | zero => simp [pollLoopFueled] at h
  | succ n ih =>
    by_cases hk : (running && (st.processKilled || sched.isEmpty)) = true
    · obtain ⟨hrun, hke⟩ : running = true ∧
          (st.processKilled = true ∨ sched.isEmpty = true) := by simpa using hk
      refine ⟨hrun, ?_⟩
      have h1 : (pollLoopFueled running (n + 1) sched st).1 = st := by
        simp [pollLoopFueled, hk]
      rw [h1]
      rcases hke with hkill | hempty
      · exact (pollLoop_killed sched st hkill).symm
      · cases sched with
        | nil => rfl
        | cons c rest => simp at hempty
    · have hk' : (running && (st.processKilled || sched.isEmpty)) = false := by
        simpa using hk
      cases sched with
      | nil =>
        have hrun : running = false := by
          by_cases hr : running = true
          · simp [hr] at hk'
          · simpa using hr
        subst hrun
        simp [pollLoopFueled_not_running] at h
      | cons c rest =>
        have hneg : ¬(running = true ∧ st.processKilled = true) := by
          rintro ⟨h1, h2⟩
          rw [h1, h2] at hk'
          simp at hk'
        by_cases hcc : (st.cancelRequested || c) = true
        · have hstep : pollLoopFueled running (n + 1) (c :: rest) st =
              pollLoopFueled running n rest
                { st with cancelRequested := true, processKilled := true,
                          trace := st.trace ++ [.info cancelNoticeMsg, .kill] } := by
            simp [pollLoopFueled, hneg, hcc, emit]
          rw [hstep] at h ⊢
          obtain ⟨hrun, heq⟩ := ih _ _ h
          refine ⟨hrun, ?_⟩
          rw [heq]
          have hkill : st.processKilled = false := by
            rw [hrun] at hk'
            simpa using hk'
          simp [pollLoop, hkill, hcc, emit, pollLoop_killed]
        · have hcc' : (st.cancelRequested || c) = false := by simpa using hcc
          have hstep : pollLoopFueled running (n + 1) (c :: rest) st =
              pollLoopFueled running n rest st := by
            simp [pollLoopFueled, hneg, hcc']
          rw [hstep] at h ⊢
          obtain ⟨hrun, heq⟩ := ih _ _ h
          refine ⟨hrun, ?_⟩
          rw [heq]
          have hkill : st.processKilled = false := by
            rw [hrun] at hk'
            simpa using hk'
          simp [pollLoop, hkill, hcc']

/-! ## Phase lemmas -/

/-- Finalization appends some completion-free actions and then exactly one
completion signal carrying the final cancellation flag. -/
theorem finalizePhase_spec (env : EvalEnv) (st : ScanState) :
    ∃ t, (finalizePhase env st).trace =
        st.trace ++ t ++ [Action.completion (finalizePhase env st).cancelRequested] ∧
      ∀ a ∈ t, a.isCompletion = false := by
  by_cases hc : st.cancelRequested = true
  · exact ⟨[.info "Scanning cancelled!"],
      by simp [finalizePhase, hc, emit, Action.isCompletion]⟩
  · have hc' : st.cancelRequested = false := by simpa using hc
    by_cases he : env.exitCode = 1
    · exact ⟨[.error evalErrMsg],
        by simp [finalizePhase, hc', he, emit, Action.isCompletion]⟩
    · exact ⟨[.info "The oscap tool has finished. Reading results...",
              .readFile env.resultFileName, .readFile env.reportFileName,
              .readFile env.arfFileName, .info "Processing has been finished!"],
        by simp [finalizePhase, hc', he, emit, Action.isCompletion]⟩

/-- The launch segment only appends completion-free actions to the trace. -/
theorem launchState_trace (B : Builders) (env : EvalEnv) (st : ScanState) :
    ∃ t, (launchState B env st).trace = st.trace ++ t ∧
      ∀ a ∈ t, a.isCompletion = false := by
  by_cases hm : env.scannerMode = .SM_OFFLINE_REMEDIATION
  all_goals by_cases hp : env.processStarts = true
  all_goals simp only [launchState, hm, hp, emit, if_true, if_false,
    Bool.false_eq_true, ite_true, ite_false, reduceIte]
  · exact ⟨[.info "Starting the oscap process...",
            .writeFile env.inputArfTempName env.arfForRemediation,
            .spawn (getOscapProgram env.cfg env.pkexecOverride (realScanArgs B env)).1
                   (getOscapProgram env.cfg env.pkexecOverride (realScanArgs B env)).2,
            .info "Processing..."],
      by simp, by simp [Action.isCompletion]⟩
  · exact ⟨[.info "Starting the oscap process...",
            .writeFile env.inputArfTempName env.arfForRemediation,
            .spawn (getOscapProgram env.cfg env.pkexecOverride (realScanArgs B env)).1
                   (getOscapProgram env.cfg env.pkexecOverride (realScanArgs B env)).2,
            .error (launchFailMsg (getOscapProgram env.cfg env.pkexecOverride (realScanArgs B env)).1),
            .info "Processing..."],
      by simp, by simp [Action.isCompletion]⟩
  · exact ⟨[.info "Starting the oscap process...",
            .spawn (getOscapProgram env.cfg env.pkexecOverride (realScanArgs B env)).1
                   (getOscapProgram env.cfg env.pkexecOverride (realScanArgs B env)).2,
            .info "Processing..."],
      by simp, by simp [Action.isCompletion]⟩
  · exact ⟨[.info "Starting the oscap process...",
            .spawn (getOscapProgram env.cfg env.pkexecOverride (realScanArgs B env)).1
                   (getOscapProgram env.cfg env.pkexecOverride (realScanArgs B env)).2,
            .error (launchFailMsg (getOscapProgram env.cfg env.pkexecOverride (realScanArgs B env)).1),
            .info "Processing..."],
      by simp, by simp [Action.isCompletion]⟩

/-- The launch-and-poll phase emits exactly one completion signal, the last
action before the trace ends, carrying the final cancellation flag. -/
theorem scanPhase_spec (B : Builders) (env : EvalEnv) (st : ScanState) :
    ∃ t, (scanPhase B env st).trace =
        st.trace ++ t ++ [Action.completion (scanPhase B env st).cancelRequested] ∧
      ∀ a ∈ t, a.isCompletion = false := by
  obtain ⟨tp, htp, hmp⟩ := launchState_trace B env st
  obtain ⟨tl, htl, hml, _, _, _, _⟩ :=
    pollLoop_frame env.schedule (launchState B env st)
  obtain ⟨tf, htf, hmf⟩ :=
    finalizePhase_spec env (pollLoop env.schedule (launchState B env st))
  refine ⟨tp ++ tl ++ tf, ?_, ?_⟩
  · show (finalizePhase env (pollLoop env.schedule (launchState B env st))).trace = _
    rw [htf, htl, htp]
    simp [scanPhase, List.append_assoc]
  · intro a ha
    simp only [List.mem_append] at ha
    rcases ha with (ha | ha) | ha
    · exact hmp a ha
    · rcases hml a ha with h | h <;> simp [h, Action.isCompletion]
    · exact hmf a ha

/-- After a successful probe and prerequisite check, `evaluate` from the
fresh state is the launch-and-poll phase over the post-probe state. -/
theorem evaluate_main_path (B : Builders) (env : EvalEnv)
    (hdry : env.dryRun = false) (hprobe : env.probeExitCode = 0)
    (hpre : env.prerequisitesOk = true) :
    evaluate B env ScanState.initial =
      scanPhase B env
        { cancelRequested := false
          processKilled := false
          capabilities := some env.probeStdOut
          results := none
          report := none
          arf := none
          trace := [.info "Querying capabilities...",
                    .spawn env.cfg.localOscapPath ["-V"]] } := by
  simp [evaluate, fillInCapabilities, hdry, hprobe, hpre, emit, ScanState.initial]

/-- When the process enters the running state, the launch segment only adds
its four (or five, in offline mode) actions to the trace. -/
theorem launchState_started (B : Builders) (env : EvalEnv) (st : ScanState)
    (hstart : env.processStarts = true) :
    launchState B env st = { st with trace := st.trace ++
      ([.info "Starting the oscap process..."] ++
       (if env.scannerMode = .SM_OFFLINE_REMEDIATION then
          [.writeFile env.inputArfTempName env.arfForRemediation] else []) ++
       [.spawn (getOscapProgram env.cfg env.pkexecOverride (realScanArgs B env)).1
               (getOscapProgram env.cfg env.pkexecOverride (realScanArgs B env)).2,
        .info "Processing..."]) } := by
  by_cases hm : env.scannerMode = .SM_OFFLINE_REMEDIATION <;>
    simp [launchState, hm, hstart, emit]

/-- When the process fails to enter the running state, the launch segment
emits the launch-failure error, sets the cancellation flag, and adds no
completion — the poll loop is entered with the flag already set. -/
theorem launchState_failed (B : Builders) (env : EvalEnv) (st : ScanState)
    (hstart : env.processStarts = false) :
    launchState B env st =
      { st with cancelRequested := true,
                trace := st.trace ++
                  ([.info "Starting the oscap process..."] ++
                   (if env.scannerMode = .SM_OFFLINE_REMEDIATION then
                      [.writeFile env.inputArfTempName env.arfForRemediation]
                    else []) ++
                   [.spawn (getOscapProgram env.cfg env.pkexecOverride
                             (realScanArgs B env)).1
                           (getOscapProgram env.cfg env.pkexecOverride
                             (realScanArgs B env)).2,
                    .error (launchFailMsg (getOscapProgram env.cfg
                      env.pkexecOverride (realScanArgs B env)).1),
                    .info "Processing..."]) } := by
  by_cases hm : env.scannerMode = .SM_OFFLINE_REMEDIATION <;>
    simp [launchState, hm, hstart, emit]

/-- Refinement: whenever the scan process enters the running state and the
fuel covers the schedule, the fueled (faithful) semantics terminates with
exactly the state the idealized `evaluate` computes — so every theorem about
`evaluate` on started-process runs is a theorem about the faithful
semantics. -/
theorem evaluateFueled_eq_evaluate (B : Builders) (env : EvalEnv) (fuel : Nat)
    (st : ScanState) (hstart : env.processStarts = true)
    (hfuel : env.schedule.length < fuel) :
    evaluateFueled B env fuel st = (evaluate B env st, true) := by
  by_cases hdry : env.dryRun = true
  · simp [evaluateFueled, evaluate, hdry]
  · have hdry' : env.dryRun = false := by simpa using hdry
    by_cases hprobe : env.probeExitCode = 0
    · by_cases hpre : env.prerequisitesOk = true
      · simp [evaluateFueled, evaluate, scanPhase, fillInCapabilities, hdry',
          hprobe, hpre, hstart, emit, pollLoopFueled_enough env.schedule fuel _ hfuel]
      · have hpre' : env.prerequisitesOk = false := by simpa using hpre
        simp [evaluateFueled, evaluate, fillInCapabilities, hdry', hprobe,
          hpre', emit]
    · simp [evaluateFueled, evaluate, fillInCapabilities, hdry', hprobe, emit]

/-- Conversely, every terminating fueled run (whatever the fuel) computes
the state the idealized `evaluate` computes. -/
theorem evaluateFueled_terminating (B : Builders) (env : EvalEnv) (fuel : Nat)
    (h : (evaluateFueled B env fuel ScanState.initial).2 = true) :
    (evaluateFueled B env fuel ScanState.initial).1 =
      evaluate B env ScanState.initial := by
  by_cases hdry : env.dryRun = true
  · simp [evaluateFueled, evaluate, hdry]
  · have hdry' : env.dryRun = false := by simpa using hdry
    by_cases hprobe : env.probeExitCode = 0
    · by_cases hpre : env.prerequisitesOk = true
      · have hred : evaluateFueled B env fuel ScanState.initial =
            (if (pollLoopFueled env.processStarts fuel env.schedule
                  (launchState B env
                    { cancelRequested := false
                      processKilled := false
                      capabilities := some env.probeStdOut
                      results := none
                      report := none
                      arf := none
                      trace := [.info "Querying capabilities...",
                                .spawn env.cfg.localOscapPath ["-V"]] })).2 = true
             then
               (finalizePhase env
                 (pollLoopFueled env.processStarts fuel env.schedule
                   (launchState B env
                     { cancelRequested := false
                       processKilled := false
                       capabilities := some env.probeStdOut
                       results := none
                       report := none
                       arf := none
                       trace := [.info "Querying capabilities...",
                                 .spawn env.cfg.localOscapPath ["-V"]] })).1, true)
             else
               ((pollLoopFueled env.processStarts fuel env.schedule
                   (launchState B env
                     { cancelRequested := false
                       processKilled := false
                       capabilities := some env.probeStdOut
                       results := none
                       report := none
                       arf := none
                       trace := [.info "Querying capabilities...",
                                 .spawn env.cfg.localOscapPath ["-V"]] })).1,
                false)) := by
          simp [evaluateFueled, fillInCapabilities, hdry', hprobe, hpre, emit,
            ScanState.initial]
        rw [hred] at h ⊢
        by_cases hp2 : (pollLoopFueled env.processStarts fuel env.schedule
            (launchState B env
              { cancelRequested := false
                processKilled := false
                capabilities := some env.probeStdOut
                results := none
                report := none
                arf := none
                trace := [.info "Querying capabilities...",
                          .spawn env.cfg.localOscapPath ["-V"]] })).2 = true
        · obtain ⟨hrun, heq⟩ := pollLoopFueled_exit fuel _ _ _ hp2
          rw [if_pos hp2, evaluate_main_path B env hdry' hprobe hpre, scanPhase,
            heq]
        · rw [if_neg hp2] at h
          simp at h
      · have hpre' : env.prerequisitesOk = false := by simpa using hpre
        simp [evaluateFueled, evaluate, fillInCapabilities, hdry', hprobe,
          hpre', emit]
    · simp [evaluateFueled, evaluate, fillInCapabilities, hdry', hprobe, emit]

/-! ## Claim theorems -/

/-- C5: `getOscapProgram`: with the niceness wrapper enabled the argument
vector becomes niceness flag, niceness level, resolved elevated-invocation
path (the environment override when set, otherwise the configured default),
then the original arguments unchanged, and the returned program is the
niceness wrapper's path; when disabled, the argument vector is untouched and
the returned program is the resolved elevated-invocation path. -/
theorem getOscapProgram_resolution (cfg : Config) (envOverride : String)
    (args : List String) :
    getOscapProgram cfg envOverride args =
      if cfg.niceFound then
        (cfg.nicePath,
         "-n" :: toString cfg.niceness ::
           (if envOverride = "" then cfg.pkexecOscapPath else envOverride) :: args)
      else
        ((if envOverride = "" then cfg.pkexecOscapPath else envOverride), args) := by
  simp [getOscapProgram, getPkexecOscapPath]

/-- C9: a dry run, in every scan mode, spawns no process, leaves the three
artifact buffers empty, and immediately signals completion with the
not-cancelled disposition: the whole run is one completion signal. -/
theorem evaluate_dry_run (B : Builders) (env : EvalEnv)
    (h : env.dryRun = true) :
    evaluate B env ScanState.initial =
      { ScanState.initial with trace := [Action.completion false] } := by
  simp [evaluate, h, emit, ScanState.initial]

theorem evaluate_dry_run_witness :
    sampleEnvDry.dryRun = true ∧
      evaluate sampleBuilders sampleEnvDry ScanState.initial =
        { ScanState.initial with trace := [Action.completion false] } :=
  ⟨rfl, evaluate_dry_run sampleBuilders sampleEnvDry rfl⟩

/-- C3: when the capability probe exits non-zero, the run is exactly: the
capability query notice, the probe spawn, one completion signal with the
cancelled disposition, and the error notice converted from the caught fault
— the cancellation flag is set, the diagnostic text is non-empty, no main
scan process is spawned and no further states are entered. -/
theorem evaluate_probe_failure (B : Builders) (env : EvalEnv)
    (hdry : env.dryRun = false) (hprobe : env.probeExitCode ≠ 0) :
    evaluate B env ScanState.initial =
      { cancelRequested := true
        processKilled := false
        capabilities := none
        results := none
        report := none
        arf := none
        trace := [.info "Querying capabilities...",
                  .spawn env.cfg.localOscapPath ["-V"],
                  .completion true,
                  .error (capFailMsg env.probeDiagnostic)] } ∧
    capFailMsg env.probeDiagnostic ≠ "" := by
  constructor
  · simp [evaluate, fillInCapabilities, hdry, hprobe, emit, ScanState.initial]
  · intro h
    have := congrArg String.data h
    simp [capFailMsg] at this

theorem evaluate_probe_failure_witness :
    sampleEnvProbeFail.dryRun = false ∧ sampleEnvProbeFail.probeExitCode ≠ 0 ∧
      (evaluate sampleBuilders sampleEnvProbeFail ScanState.initial =
        { cancelRequested := true
          processKilled := false
          capabilities := none
          results := none
          report := none
          arf := none
          trace := [.info "Querying capabilities...",
                    .spawn sampleEnvProbeFail.cfg.localOscapPath ["-V"],
                    .completion true,
                    .error (capFailMsg sampleEnvProbeFail.probeDiagnostic)] } ∧
       capFailMsg sampleEnvProbeFail.probeDiagnostic ≠ "") :=
  ⟨rfl, by decide,
   evaluate_probe_failure sampleBuilders sampleEnvProbeFail rfl (by decide)⟩

/-- C7: with an empty profile identifier, role generation emits exactly the
error notice: no process is spawned, no file is created or modified, and the
run state is otherwise untouched. -/
theorem role_missing_profile (env : RoleEnv) (st : ScanState)
    (h : env.profileId = "") :
    createRemediationRoleAfterEvaluate env st =
      emit st (.error roleNoProfileMsg) := by
  simp [createRemediationRoleAfterEvaluate, h]

theorem role_missing_profile_witness :
    sampleRoleEnvNoProfile.profileId = "" ∧
      createRemediationRoleAfterEvaluate sampleRoleEnvNoProfile ScanState.initial =
        emit ScanState.initial (.error roleNoProfileMsg) :=
  ⟨rfl, role_missing_profile sampleRoleEnvNoProfile ScanState.initial rfl⟩

/-- C8: with a non-empty profile identifier, role generation appends to the
trace, in order: the zero-length pre-creation of the destination role file,
then the spawn of the resolved program over exactly the fixed-shape vector
`xccdf generate fix --fix-type <type> --output <path> --result-id <profile>
<archive-path>` (program resolution prefixing aside), then the processing
notice, and on exit code 1 the error notice. -/
theorem role_generation_shape (env : RoleEnv) (st : ScanState)
    (h : env.profileId ≠ "") :
    createRemediationRoleAfterEvaluate env st =
      { st with trace := st.trace ++
          [.writeFile env.roleFile "",
           .spawn (getOscapProgram env.cfg env.pkexecOverride
                    ["xccdf", "generate", "fix",
                     "--fix-type", env.fixType, "--output", env.roleFile,
                     "--result-id", env.profileId, env.arfFileName]).1
                  (getOscapProgram env.cfg env.pkexecOverride
                    ["xccdf", "generate", "fix",
                     "--fix-type", env.fixType, "--output", env.roleFile,
                     "--result-id", env.profileId, env.arfFileName]).2,
           .info "Processing..."] ++
          (if env.exitCode = 1 then [.error roleErrMsg] else []) } := by
  by_cases he : env.exitCode = 1 <;>
    simp [createRemediationRoleAfterEvaluate, roleArgs, h, he, emit]

theorem role_generation_shape_witness :
    sampleRoleEnv.profileId ≠ "" ∧
      createRemediationRoleAfterEvaluate sampleRoleEnv ScanState.initial =
        { ScanState.initial with trace := ScanState.initial.trace ++
            [.writeFile sampleRoleEnv.roleFile "",
             .spawn (getOscapProgram sampleRoleEnv.cfg sampleRoleEnv.pkexecOverride
                      ["xccdf", "generate", "fix",
                       "--fix-type", sampleRoleEnv.fixType, "--output", sampleRoleEnv.roleFile,
                       "--result-id", sampleRoleEnv.profileId, sampleRoleEnv.arfFileName]).1
                    (getOscapProgram sampleRoleEnv.cfg sampleRoleEnv.pkexecOverride
                      ["xccdf", "generate", "fix",
                       "--fix-type", sampleRoleEnv.fixType, "--output", sampleRoleEnv.roleFile,
                       "--result-id", sampleRoleEnv.profileId, sampleRoleEnv.arfFileName]).2,
             .info "Processing..."] ++
            (if sampleRoleEnv.exitCode = 1 then [.error roleErrMsg] else []) } :=
  ⟨by decide, role_generation_shape sampleRoleEnv ScanState.initial (by decide)⟩

/-- C10: role generation is frame-preserving on the scan run: the
cancellation flag and the three artifact buffers are unchanged, and the
appended actions contain no completion signal, no kill and no artifact
read-back — only notices, the file pre-creation and the spawn. -/
theorem role_generation_frame (env : RoleEnv) (st : ScanState) :
    (createRemediationRoleAfterEvaluate env st).cancelRequested = st.cancelRequested ∧
    (createRemediationRoleAfterEvaluate env st).results = st.results ∧
    (createRemediationRoleAfterEvaluate env st).report = st.report ∧
    (createRemediationRoleAfterEvaluate env st).arf = st.arf ∧
    ∃ t, (createRemediationRoleAfterEvaluate env st).trace = st.trace ++ t ∧
      ∀ a ∈ t, a.isCompletion = false ∧ a.isKill = false ∧ a.isReadFile = false := by
  by_cases hp : env.profileId = ""
  · refine ⟨?_, ?_, ?_, ?_, ⟨[.error roleNoProfileMsg], ?_, ?_⟩⟩ <;>
      simp [createRemediationRoleAfterEvaluate, hp, emit,
        Action.isCompletion, Action.isKill, Action.isReadFile]
  · by_cases he : env.exitCode = 1
    · refine ⟨?_, ?_, ?_, ?_,
        ⟨[.writeFile env.roleFile "",
          .spawn (getOscapProgram env.cfg env.pkexecOverride (roleArgs env)).1
                 (getOscapProgram env.cfg env.pkexecOverride (roleArgs env)).2,
          .info "Processing...", .error roleErrMsg], ?_, ?_⟩⟩ <;>
        simp [createRemediationRoleAfterEvaluate, hp, he, emit,
          Action.isCompletion, Action.isKill, Action.isReadFile]
    · refine ⟨?_, ?_, ?_, ?_,
        ⟨[.writeFile env.roleFile "",
          .spawn (getOscapProgram env.cfg env.pkexecOverride (roleArgs env)).1
                 (getOscapProgram env.cfg env.pkexecOverride (roleArgs env)).2,
          .info "Processing..."], ?_, ?_⟩⟩ <;>
        simp [createRemediationRoleAfterEvaluate, hp, he, emit,
          Action.isCompletion, Action.isKill, Action.isReadFile]

/-- C1: in a run with no cancellation request where the process has exited:
exit code exactly 1 emits the error notice, marks the run cancelled and reads
none of the three artifact files back; every other exit code (0 or any other
non-zero value) reads all three artifact files in full into the run's buffers
and emits the success notice. -/
theorem evaluate_exit_code_dichotomy (B : Builders) (env : EvalEnv)
    (hdry : env.dryRun = false) (hprobe : env.probeExitCode = 0)
    (hpre : env.prerequisitesOk = true) (hstart : env.processStarts = true)
    (hsched : ∀ c ∈ env.schedule, c = false) :
    (env.exitCode = 1 →
       (evaluate B env ScanState.initial).cancelRequested = true ∧
       (evaluate B env ScanState.initial).results = none ∧
       (evaluate B env ScanState.initial).report = none ∧
       (evaluate B env ScanState.initial).arf = none ∧
       Action.error evalErrMsg ∈ (evaluate B env ScanState.initial).trace ∧
       (evaluate B env ScanState.initial).trace.countP Action.isReadFile = 0) ∧
    (env.exitCode ≠ 1 →
       (evaluate B env ScanState.initial).cancelRequested = false ∧
       (evaluate B env ScanState.initial).results = some env.resultFileContents ∧
       (evaluate B env ScanState.initial).report = some env.reportFileContents ∧
       (evaluate B env ScanState.initial).arf = some env.arfFileContents ∧
       Action.info "Processing has been finished!" ∈
         (evaluate B env ScanState.initial).trace) := by
  rw [evaluate_main_path B env hdry hprobe hpre, scanPhase,
    launchState_started B env _ hstart,
    pollLoop_no_cancel env.schedule _ hsched rfl]
  constructor
  · intro he
    by_cases hm : env.scannerMode = .SM_OFFLINE_REMEDIATION <;>
      simp [finalizePhase, he, hm, emit, Action.isReadFile,
        List.countP_append, List.countP_cons]
  · intro he
    by_cases hm : env.scannerMode = .SM_OFFLINE_REMEDIATION <;>
      simp [finalizePhase, he, hm, emit]

theorem evaluate_exit_code_dichotomy_witness :
    (sampleEnv.dryRun = false ∧ sampleEnv.probeExitCode = 0 ∧
     sampleEnv.prerequisitesOk = true ∧ sampleEnv.processStarts = true ∧
     (∀ c ∈ sampleEnv.schedule, c = false)) ∧
    ((sampleEnv.exitCode = 1 →
       (evaluate sampleBuilders sampleEnv ScanState.initial).cancelRequested = true ∧
       (evaluate sampleBuilders sampleEnv ScanState.initial).results = none ∧
       (evaluate sampleBuilders sampleEnv ScanState.initial).report = none ∧
       (evaluate sampleBuilders sampleEnv ScanState.initial).arf = none ∧
       Action.error evalErrMsg ∈ (evaluate sampleBuilders sampleEnv ScanState.initial).trace ∧
       (evaluate sampleBuilders sampleEnv ScanState.initial).trace.countP Action.isReadFile = 0) ∧
     (sampleEnv.exitCode ≠ 1 →
       (evaluate sampleBuilders sampleEnv ScanState.initial).cancelRequested = false ∧
       (evaluate sampleBuilders sampleEnv ScanState.initial).results = some sampleEnv.resultFileContents ∧
       (evaluate sampleBuilders sampleEnv ScanState.initial).report = some sampleEnv.reportFileContents ∧
       (evaluate sampleBuilders sampleEnv ScanState.initial).arf = some sampleEnv.arfFileContents ∧
       Action.info "Processing has been finished!" ∈
         (evaluate sampleBuilders sampleEnv ScanState.initial).trace)) :=
  ⟨⟨rfl, rfl, rfl, rfl, by decide⟩,
   evaluate_exit_code_dichotomy sampleBuilders sampleEnv rfl rfl rfl rfl (by decide)⟩

/-- C2: if the scan process launched and a cancellation request is observed
during the poll loop, then — whatever exit code the process later produces,
including 0 — the run ends cancelled (the completion signal carries the
cancelled disposition), none of the three artifact files are read back, and
the kill action is issued exactly once. -/
theorem evaluate_midscan_cancel (B : Builders) (env : EvalEnv)
    (hdry : env.dryRun = false) (hprobe : env.probeExitCode = 0)
    (hpre : env.prerequisitesOk = true) (hstart : env.processStarts = true)
    (hcancel : true ∈ env.schedule) (_hexit : env.exitCode = 0) :
    (evaluate B env ScanState.initial).cancelRequested = true ∧
    (evaluate B env ScanState.initial).results = none ∧
    (evaluate B env ScanState.initial).report = none ∧
    (evaluate B env ScanState.initial).arf = none ∧
    (evaluate B env ScanState.initial).trace.countP Action.isKill = 1 ∧
    (evaluate B env ScanState.initial).trace.countP Action.isReadFile = 0 ∧
    Action.completion true ∈ (evaluate B env ScanState.initial).trace := by
  rw [evaluate_main_path B env hdry hprobe hpre, scanPhase,
    launchState_started B env _ hstart,
    pollLoop_cancels env.schedule _ rfl rfl hcancel]
  by_cases hm : env.scannerMode = .SM_OFFLINE_REMEDIATION <;>
    simp [finalizePhase, hm, emit, Action.isKill, Action.isReadFile,
      List.countP_append, List.countP_cons]

theorem evaluate_midscan_cancel_witness :
    (sampleEnvCancel.dryRun = false ∧ sampleEnvCancel.probeExitCode = 0 ∧
     sampleEnvCancel.prerequisitesOk = true ∧ sampleEnvCancel.processStarts = true ∧
     true ∈ sampleEnvCancel.schedule ∧ sampleEnvCancel.exitCode = 0) ∧
    ((evaluate sampleBuilders sampleEnvCancel ScanState.initial).cancelRequested = true ∧
     (evaluate sampleBuilders sampleEnvCancel ScanState.initial).results = none ∧
     (evaluate sampleBuilders sampleEnvCancel ScanState.initial).report = none ∧
     (evaluate sampleBuilders sampleEnvCancel ScanState.initial).arf = none ∧
     (evaluate sampleBuilders sampleEnvCancel ScanState.initial).trace.countP Action.isKill = 1 ∧
     (evaluate sampleBuilders sampleEnvCancel ScanState.initial).trace.countP Action.isReadFile = 0 ∧
     Action.completion true ∈ (evaluate sampleBuilders sampleEnvCancel ScanState.initial).trace) :=
  ⟨⟨rfl, rfl, rfl, rfl, by decide, rfl⟩,
   evaluate_midscan_cancel sampleBuilders sampleEnvCancel rfl rfl rfl rfl
     (by decide) rfl⟩

/-- Every run of the idealized always-terminating model `evaluate` emits
exactly one completion signal, and every completion signal in the trace
carries the run's final cancellation flag as its disposition.  By the fueled
refinement lemmas this is the faithful behaviour of the source on every
terminating path — all pre-launch paths, and every launch whose process
enters the running state — but not on the launch-failure path, where the
source never exits the poll loop and never signals completion. -/
theorem evaluate_single_completion (B : Builders) (env : EvalEnv) :
    (evaluate B env ScanState.initial).trace.countP Action.isCompletion = 1 ∧
    ∀ b, Action.completion b ∈ (evaluate B env ScanState.initial).trace →
      b = (evaluate B env ScanState.initial).cancelRequested := by
  by_cases hdry : env.dryRun = true
  · constructor <;>
      simp [evaluate, hdry, emit, ScanState.initial, Action.isCompletion]
  · have hdry' : env.dryRun = false := by simpa using hdry
    by_cases hprobe : env.probeExitCode = 0
    · by_cases hpre : env.prerequisitesOk = true
      · rw [evaluate_main_path B env hdry' hprobe hpre]
        obtain ⟨t, ht, hmem⟩ := scanPhase_spec B env
          { cancelRequested := false
            processKilled := false
            capabilities := some env.probeStdOut
            results := none
            report := none
            arf := none
            trace := [.info "Querying capabilities...",
                      .spawn env.cfg.localOscapPath ["-V"]] }
        rw [ht]
        constructor
        · have hz : t.countP Action.isCompletion = 0 :=
            List.countP_eq_zero.mpr (by simpa using hmem)
          simp [List.countP_append, List.countP_cons, hz, Action.isCompletion]
        · intro b hb
          simp only [List.append_assoc, List.mem_append, List.mem_cons,
            List.mem_singleton, List.not_mem_nil, or_false] at hb
          rcases hb with (hb | hb) | hb | hb
          · cases hb
          · cases hb
          · have := hmem _ hb
            simp [Action.isCompletion] at this
          · injection hb
      · have hpre' : env.prerequisitesOk = false := by simpa using hpre
        constructor <;>
          simp [evaluate, fillInCapabilities, hdry', hprobe, hpre', emit,
            ScanState.initial, Action.isCompletion]
    · constructor <;>
        simp [evaluate, fillInCapabilities, hdry', hprobe, emit,
          ScanState.initial, Action.isCompletion]

/-- C4, the code's divergence from the claim: on the launch-failure path
(probe and prerequisites pass, but the scan process fails to enter the
running state), `QProcess::waitForFinished` never succeeds, so for every
fuel the faithful run has not terminated, its trace contains zero completion
signals — the claim demands exactly one — and it does contain the
launch-failure error notice (the failure was reported, the flag set, and
then the loop entered, never to exit: the `signalCompletion` of line 211 is
unreachable). -/
theorem evaluate_launch_failure_hangs (B : Builders) (env : EvalEnv)
    (fuel : Nat) (hdry : env.dryRun = false) (hprobe : env.probeExitCode = 0)
    (hpre : env.prerequisitesOk = true) (hstart : env.processStarts = false) :
    (evaluateFueled B env fuel ScanState.initial).2 = false ∧
    (evaluateFueled B env fuel ScanState.initial).1.trace.countP
      Action.isCompletion = 0 ∧
    Action.error (launchFailMsg
        (getOscapProgram env.cfg env.pkexecOverride (realScanArgs B env)).1) ∈
      (evaluateFueled B env fuel ScanState.initial).1.trace := by
  by_cases hm : env.scannerMode = .SM_OFFLINE_REMEDIATION
  · have hnr := pollLoopFueled_not_running fuel env.schedule
      { cancelRequested := true
        processKilled := false
        capabilities := some env.probeStdOut
        results := none
        report := none
        arf := none
        trace := [.info "Querying capabilities...",
                  .spawn env.cfg.localOscapPath ["-V"],
                  .info "Starting the oscap process...",
                  .writeFile env.inputArfTempName env.arfForRemediation,
                  .spawn (getOscapProgram env.cfg env.pkexecOverride (realScanArgs B env)).1
                         (getOscapProgram env.cfg env.pkexecOverride (realScanArgs B env)).2,
                  .error (launchFailMsg
                    (getOscapProgram env.cfg env.pkexecOverride (realScanArgs B env)).1),
                  .info "Processing..."] }
    have hred : evaluateFueled B env fuel ScanState.initial =
        ((pollLoopFueled false fuel env.schedule
          { cancelRequested := true
            processKilled := false
            capabilities := some env.probeStdOut
            results := none
            report := none
            arf := none
            trace := [.info "Querying capabilities...",
                      .spawn env.cfg.localOscapPath ["-V"],
                      .info "Starting the oscap process...",
                      .writeFile env.inputArfTempName env.arfForRemediation,
                      .spawn (getOscapProgram env.cfg env.pkexecOverride (realScanArgs B env)).1
                             (getOscapProgram env.cfg env.pkexecOverride (realScanArgs B env)).2,
                      .error (launchFailMsg
                        (getOscapProgram env.cfg env.pkexecOverride (realScanArgs B env)).1),
                      .info "Processing..."] }).1, false) := by
      simp [evaluateFueled, fillInCapabilities, launchState, hdry, hprobe,
        hpre, hstart, hm, emit, ScanState.initial, hnr]
    obtain ⟨t, ht, hmem⟩ := pollLoopFueled_frame false fuel env.schedule
      { cancelRequested := true
        processKilled := false
        capabilities := some env.probeStdOut
        results := none
        report := none
        arf := none
        trace := [.info "Querying capabilities...",
                  .spawn env.cfg.localOscapPath ["-V"],
                  .info "Starting the oscap process...",
                  .writeFile env.inputArfTempName env.arfForRemediation,
                  .spawn (getOscapProgram env.cfg env.pkexecOverride (realScanArgs B env)).1
                         (getOscapProgram env.cfg env.pkexecOverride (realScanArgs B env)).2,
                  .error (launchFailMsg
                    (getOscapProgram env.cfg env.pkexecOverride (realScanArgs B env)).1),
                  .info "Processing..."] }
    have htz : t.countP Action.isCompletion = 0 :=
      List.countP_eq_zero.mpr (by
        intro a ha
        rcases hmem a ha with hI | hI <;> simp [hI, Action.isCompletion])
    rw [hred]
    refine ⟨rfl, ?_, ?_⟩
    · rw [ht]
      simp [htz, List.countP_append, List.countP_cons, Action.isCompletion]
    · rw [ht]
      simp
  · have hnr := pollLoopFueled_not_running fuel env.schedule
      { cancelRequested := true
        processKilled := false
        capabilities := some env.probeStdOut
        results := none
        report := none
        arf := none
        trace := [.info "Querying capabilities...",
                  .spawn env.cfg.localOscapPath ["-V"],
                  .info "Starting the oscap process...",
                  .spawn (getOscapProgram env.cfg env.pkexecOverride (realScanArgs B env)).1
                         (getOscapProgram env.cfg env.pkexecOverride (realScanArgs B env)).2,
                  .error (launchFailMsg
                    (getOscapProgram env.cfg env.pkexecOverride (realScanArgs B env)).1),
                  .info "Processing..."] }
    have hred : evaluateFueled B env fuel ScanState.initial =
        ((pollLoopFueled false fuel env.schedule
          { cancelRequested := true
            processKilled := false
            capabilities := some env.probeStdOut
            results := none
            report := none
            arf := none
            trace := [.info "Querying capabilities...",
                      .spawn env.cfg.localOscapPath ["-V"],
                      .info "Starting the oscap process...",
                      .spawn (getOscapProgram env.cfg env.pkexecOverride (realScanArgs B env)).1
                             (getOscapProgram env.cfg env.pkexecOverride (realScanArgs B env)).2,
                      .error (launchFailMsg
                        (getOscapProgram env.cfg env.pkexecOverride (realScanArgs B env)).1),
                      .info "Processing..."] }).1, false) := by
      simp [evaluateFueled, fillInCapabilities, launchState, hdry, hprobe,
        hpre, hstart, hm, emit, ScanState.initial, hnr]
    obtain ⟨t, ht, hmem⟩ := pollLoopFueled_frame false fuel env.schedule
      { cancelRequested := true
        processKilled := false
        capabilities := some env.probeStdOut
        results := none
        report := none
        arf := none
        trace := [.info "Querying capabilities...",
                  .spawn env.cfg.localOscapPath ["-V"],
                  .info "Starting the oscap process...",
                  .spawn (getOscapProgram env.cfg env.pkexecOverride (realScanArgs B env)).1
                         (getOscapProgram env.cfg env.pkexecOverride (realScanArgs B env)).2,
                  .error (launchFailMsg
                    (getOscapProgram env.cfg env.pkexecOverride (realScanArgs B env)).1),
                  .info "Processing..."] }
    have htz : t.countP Action.isCompletion = 0 :=
      List.countP_eq_zero.mpr (by
        intro a ha
        rcases hmem a ha with hI | hI <;> simp [hI, Action.isCompletion])
    rw [hred]
    refine ⟨rfl, ?_, ?_⟩
    · rw [ht]
      simp [htz, List.countP_append, List.countP_cons, Action.isCompletion]
    · rw [ht]
      simp

theorem evaluate_launch_failure_hangs_witness :
    (sampleEnvLaunchFail.dryRun = false ∧
     sampleEnvLaunchFail.probeExitCode = 0 ∧
     sampleEnvLaunchFail.prerequisitesOk = true ∧
     sampleEnvLaunchFail.processStarts = false) ∧
    ((evaluateFueled sampleBuilders sampleEnvLaunchFail 3 ScanState.initial).2 = false ∧
     (evaluateFueled sampleBuilders sampleEnvLaunchFail 3 ScanState.initial).1.trace.countP
       Action.isCompletion = 0 ∧
     Action.error (launchFailMsg
         (getOscapProgram sampleEnvLaunchFail.cfg sampleEnvLaunchFail.pkexecOverride
           (realScanArgs sampleBuilders sampleEnvLaunchFail)).1) ∈
       (evaluateFueled sampleBuilders sampleEnvLaunchFail 3 ScanState.initial).1.trace) :=
  ⟨⟨rfl, rfl, rfl, rfl⟩,
   evaluate_launch_failure_hangs sampleBuilders sampleEnvLaunchFail 3
     rfl rfl rfl rfl⟩

/-- The honest general completion property of the faithful semantics: every
run that terminates — any fuel, any environment — emits exactly one
completion signal, carrying the final cancellation flag.  Only the
launch-failure path is excluded, since it never terminates. -/
theorem evaluateFueled_single_completion (B : Builders) (env : EvalEnv)
    (fuel : Nat)
    (h : (evaluateFueled B env fuel ScanState.initial).2 = true) :
    (evaluateFueled B env fuel ScanState.initial).1.trace.countP
      Action.isCompletion = 1 ∧
    ∀ b, Action.completion b ∈
        (evaluateFueled B env fuel ScanState.initial).1.trace →
      b = (evaluateFueled B env fuel ScanState.initial).1.cancelRequested := by
  rw [evaluateFueled_terminating B env fuel h]
  exact evaluate_single_completion B env

/-- C6, counterexample to the claim as stated: with the session exposing no
tailoring (`hasTailoring = false`, so a real evaluation run passes an empty
tailoring path to the argument builder) but a non-empty user tailoring file
path, the dry-run preview differs from the real invocation shape beyond the
three deltas the claim lists, because `getCommandLineArgs` passes
`getUserTailoringFilePath()` where `evaluate` passes
`hasTailoring() ? getTailoringFilePath() : ""`. -/
theorem getCommandLineArgs_tailoring_deviation :
    (getCommandLineArgs sampleBuilders sampleEnvTailoringMismatch).1 ≠
      dryRunPreviewSpec sampleBuilders sampleEnvTailoringMismatch := by
  decide

/-- C6, amended: whenever the session's user tailoring file path coincides
with the effective tailoring path a real run passes (the session tailoring
path when tailoring is present, empty otherwise), the dry-run preview is
exactly the real invocation shape with the claimed deltas — fixed `/tmp`
placeholder output paths, capability gating disabled, the first
`"--progress"` removed, the display token prefixed — and it spawns or kills
no process. -/
theorem getCommandLineArgs_preview (B : Builders) (env : EvalEnv)
    (h : env.userTailoringFilePath =
          (if env.hasTailoring then env.tailoringFilePath else "")) :
    (getCommandLineArgs B env).1 = dryRunPreviewSpec B env ∧
    ∀ a ∈ (getCommandLineArgs B env).2,
      a.isSpawn = false ∧ a.isKill = false := by
  by_cases hm : env.scannerMode = .SM_OFFLINE_REMEDIATION <;>
    simp [getCommandLineArgs, dryRunPreviewSpec, hm, ← h,
      Action.isSpawn, Action.isKill]

theorem getCommandLineArgs_preview_witness :
    (sampleEnv.userTailoringFilePath =
      (if sampleEnv.hasTailoring then sampleEnv.tailoringFilePath else "")) ∧
    ((getCommandLineArgs sampleBuilders sampleEnv).1 =
        dryRunPreviewSpec sampleBuilders sampleEnv ∧
     ∀ a ∈ (getCommandLineArgs sampleBuilders sampleEnv).2,
       a.isSpawn = false ∧ a.isKill = false) :=
  ⟨by decide, getCommandLineArgs_preview sampleBuilders sampleEnv (by decide)⟩

end ScapWorkbench
